import Mathlib

/-!
Verification of the Proxima response-capture and multi-provider dispatch
engine.  The definitions below are a shallow embedding of the JavaScript
source: `src/electron/browser-manager.cjs` (stream interceptor),
`src/electron/rest-api.cjs` (capture orchestrator, parallel dispatch) and
`src/src/mcp-server-v3.js` (IPC client, provider wrapper, smart router).
JavaScript strings are modelled by `String`, numbers by `Nat`, and the
JS string primitives used by the source (`substring(0, n)`, `trim()`,
`startsWith`, `includes`, `toLowerCase`) are re-implemented below with
JS semantics over the character list of a `String`.
-/

namespace Proxima

/-- JS `s.substring(0, n)`: the first `n` characters of `s`. -/
def jsSubstring0 (s : String) (n : Nat) : String :=
  String.mk (s.data.take n)

/-- Whitespace characters stripped by JS `String.prototype.trim`. -/
def isJsSpace (c : Char) : Bool :=
  c = ' ' || c = '\t' || c = '\n' || c = '\r' || c = '\x0b' || c = '\x0c'

/-- JS `s.trim()`: strip leading and trailing whitespace. -/
def jsTrim (s : String) : String :=
  String.mk (((s.data.dropWhile isJsSpace).reverse.dropWhile isJsSpace).reverse)

/-- JS `s.startsWith(p)`. -/
def jsStartsWith (s p : String) : Bool :=
  p.data.isPrefixOf s.data

/-- Whether `pat` occurs as a contiguous subsequence of `hay`. -/
def containsSeq : List Char → List Char → Bool
  | hay, pat =>
    match hay with
    | [] => pat.isEmpty
    | _ :: t => pat.isPrefixOf hay || containsSeq t pat

/-- JS `s.includes(sub)`. -/
def jsIncludes (s sub : String) : Bool :=
  containsSeq s.data sub.data

/-- JS `s.toLowerCase()` (ASCII case folding, which covers every keyword the
source compares against). -/
def jsToLower (s : String) : String :=
  String.mk (s.data.map Char.toLower)

/-- The four providers the engine automates. -/
inductive Provider where
  | chatgpt
  | claude
  | perplexity
  | gemini
deriving DecidableEq, Repr

/-! ## Stream interceptor (`browser-manager.cjs`, `getProviderInterceptorScript`)

The injected page script keeps page-global capture state:
`window.__proxima_captured_response`, `window.__proxima_is_streaming` and
`window.__proxima_active_stream_id`.  Each intercepted network call draws a
fresh `streamId`, marks itself active, and after each chunk writes its
accumulated `fullText` back guarded by

  `window.__proxima_active_stream_id === streamId
     || fullText.length > (window.__proxima_captured_response || '').length`.

`finally` flips `isStreaming` off for non-Claude providers when the read loop
of the active stream ends (Claude instead relies on its `message_stop` event
handled inside the chunk parser). -/

/-- Page-global capture state shared between interceptor and orchestrator. -/
structure StreamState where
  capturedText : String
  isStreaming : Bool
  activeStreamId : Option Nat
deriving DecidableEq, Repr

/-- Events of one intercepted network call, as scheduled by the page's event
loop: the call starts (becoming the active stream), writes its accumulated
text after a chunk, or its read loop finishes. -/
inductive StreamEvent where
  | start (sid : Nat)
  | write (sid : Nat) (fullText : String)
  | finish (sid : Nat)
deriving DecidableEq, Repr

/-- One interceptor step on the shared page state.  `isClaude` selects the
Claude variant of the script, which neither resets the buffer on stream start
nor flips `isStreaming` in the `finally` block. -/
def streamStep (isClaude : Bool) (s : StreamState) : StreamEvent → StreamState
  | .start sid =>
      { s with
        activeStreamId := some sid
        isStreaming := true
        capturedText := if isClaude then s.capturedText else "" }
  | .write sid t =>
      if s.activeStreamId = some sid || t.length > s.capturedText.length then
        { s with capturedText := t }
      else
        s
  | .finish sid =>
      if !isClaude && s.activeStreamId = some sid then
        { s with isStreaming := false }
      else
        s

/-- Run a sequence of interceptor events. -/
def streamRun (isClaude : Bool) (s : StreamState) (es : List StreamEvent) : StreamState :=
  es.foldl (streamStep isClaude) s

/-! ## Response capture orchestrator (`rest-api.cjs`, `getProviderResponse`)

The orchestrator first polls the interceptor's page-global state every 500 ms
("fast path"); if that yields nothing it falls back to DOM scraping gated by
the stored pre-send fingerprint ("slow path").  The polling loops are pure in
everything but the page observations, which we pass in as functions of the
poll index. -/

/-- One observation of the interceptor's shared page state, as read by the
fast-path poll (`window.__proxima_captured_response`,
`window.__proxima_is_streaming`, `window.__proxima_fetch_intercepted`). -/
structure InterceptStatus where
  response : String
  isStreaming : Bool
  installed : Bool
deriving DecidableEq, Repr

/-- What one fast-path poll iteration decides.  A poll observation of `none`
models `executeJavaScript` rejecting (page navigating); the source retries it
unless more than 40 polls have passed. -/
inductive FastAct where
  | ret (text : String)
  | brk
  | cont
deriving DecidableEq, Repr

/-- Decision of fast-path poll `i`, exactly mirroring the loop body: a missing
install guard breaks to the DOM fallback; non-empty text with the stream done
returns it; more than 3 polls with no stream activity break to the fallback;
anything else keeps polling. -/
def fastStepAct (polls : Nat → Option InterceptStatus) (i : Nat) : FastAct :=
  match polls i with
  | none => if i > 40 then .brk else .cont
  | some s =>
    if !s.installed then .brk
    else if s.response.length > 0 && !s.isStreaming then .ret s.response
    else if i > 3 && !s.isStreaming && s.response.length = 0 then .brk
    else .cont

/-- The fast-path polling loop, by remaining fuel; `none` means control falls
through to the DOM fallback (`networkGotResponse` stayed false). -/
def fastPathAux (polls : Nat → Option InterceptStatus) : Nat → Nat → Option String
  | 0, _ => none
  | fuel + 1, i =>
    match fastStepAct polls i with
    | .ret t => some t
    | .brk => none
    | .cont => fastPathAux polls fuel (i + 1)

/-- Fast-path poll budget: `maxWaitSeconds * 2` with 600 s for Claude and
120 s otherwise. -/
def fastMaxPolls (p : Provider) : Nat :=
  (if p = .claude then 600 else 120) * 2

/-- The whole fast path of `getProviderResponse`. -/
def fastPath (polls : Nat → Option InterceptStatus) (p : Provider) : Option String :=
  fastPathAux polls (fastMaxPolls p) 0

/-- The process-global fingerprint storage used by the freshness check
(`global.perplexityOldFingerprint`, `global.perplexityOldBlockCount`,
`global.claudeOldFingerprint`). -/
structure Globals where
  perplexityOldFingerprint : String
  perplexityOldBlockCount : Nat
  claudeOldFingerprint : String
deriving DecidableEq, Repr

/-- Globals with nothing stored. -/
def Globals.empty : Globals := ⟨"", 0, ""⟩

/-- The stored fingerprint consulted by the DOM fallback for a provider. -/
def oldFingerprintOf (p : Provider) (g : Globals) : String :=
  match p with
  | .perplexity => g.perplexityOldFingerprint
  | .claude => g.claudeOldFingerprint
  | _ => ""

/-- The stored answer-block count consulted by the DOM fallback. -/
def oldBlockCountOf (p : Provider) (g : Globals) : Nat :=
  match p with
  | .perplexity => g.perplexityOldBlockCount
  | _ => 0

/-- Fingerprint clearing performed after a successful stable DOM capture. -/
def clearFingerprints (p : Provider) (g : Globals) : Globals :=
  match p with
  | .perplexity => { g with perplexityOldFingerprint := "", perplexityOldBlockCount := 0 }
  | .claude => { g with claudeOldFingerprint := "" }
  | _ => g

/-- Loop state of the DOM polling loop (`lastText`, `stableCount`,
`foundNewResponse`). -/
structure DomLoopState where
  lastText : String
  stableCount : Nat
  foundNewResponse : Bool
deriving DecidableEq, Repr

/-- Initial DOM loop state. -/
def DomLoopState.init : DomLoopState := ⟨"", 0, false⟩

/-- Stability threshold: 5 consecutive confirmations for Perplexity, 3 for
every other provider (`STABLE_THRESHOLD`). -/
def stableThreshold (p : Provider) : Nat :=
  if p = .perplexity then 5 else 3

/-- DOM poll budget (`MAX_POLLS`): 60 for Claude and Perplexity, 40 else. -/
def domMaxPolls (p : Provider) : Nat :=
  if p = .claude || p = .perplexity then 60 else 40

/-- The per-poll freshness gate of the DOM loop, for a candidate `text` and —
for Perplexity — the separately extracted last-prose-block data `pd`
(block count, 200-char fingerprint).  `none` models the `continue`
(candidate judged to be the previous turn's answer, poll skipped); `some st`
is the possibly-updated state with which the stability check proceeds. -/
def freshnessGate (p : Provider) (oldFp : String) (oldCount : Nat)
    (text : String) (pd : Nat × String) (st : DomLoopState) : Option DomLoopState :=
  if p = .perplexity && !st.foundNewResponse then
    let blockCountIncreased := oldCount > 0 && pd.1 > oldCount
    let fingerprintChanged := oldFp ≠ "" && pd.2 ≠ oldFp
      && !jsStartsWith oldFp (jsSubstring0 pd.2 100)
      && !jsStartsWith pd.2 (jsSubstring0 oldFp 100)
    if blockCountIncreased || fingerprintChanged then
      some { st with foundNewResponse := true }
    else if oldFp ≠ "" || oldCount > 0 then
      none
    else
      some { st with foundNewResponse := true }
  else if p = .claude && oldFp ≠ "" && !st.foundNewResponse then
    let currentFingerprint := jsTrim (jsSubstring0 text 200)
    if currentFingerprint = oldFp
        || jsStartsWith oldFp (jsSubstring0 currentFingerprint 100)
        || jsStartsWith currentFingerprint (jsSubstring0 oldFp 100) then
      none
    else
      some { st with foundNewResponse := true }
  else
    some st

/-- Result of the DOM polling loop: an early stable return at poll index `i`,
or budget exhaustion carrying the final `lastText`. -/
inductive DomResult where
  | stable (i : Nat) (text : String)
  | exhausted (lastText : String)
deriving DecidableEq, Repr

/-- The DOM polling loop (STEP 4 of `getProviderResponse`).  `texts i` is the
text the in-page extractor produced at poll `i` (the page script returns `''`
when no selector yields anything, which the loop treats as "no text yet");
`pdata i` is Perplexity's per-poll block-count/fingerprint probe. -/
def domPollLoop (p : Provider) (oldFp : String) (oldCount : Nat)
    (texts : Nat → String) (pdata : Nat → Nat × String) :
    Nat → Nat → DomLoopState → DomResult
  | 0, _, st => .exhausted st.lastText
  | fuel + 1, i, st =>
    if (texts i).length > 0 then
      match freshnessGate p oldFp oldCount (texts i) (pdata i) st with
      | none => domPollLoop p oldFp oldCount texts pdata fuel (i + 1) st
      | some st1 =>
        if texts i = st1.lastText then
          if st1.stableCount + 1 ≥ stableThreshold p then
            .stable i (texts i)
          else
            domPollLoop p oldFp oldCount texts pdata fuel (i + 1)
              { st1 with stableCount := st1.stableCount + 1 }
        else
          domPollLoop p oldFp oldCount texts pdata fuel (i + 1)
            { st1 with lastText := texts i, stableCount := 0 }
    else
      domPollLoop p oldFp oldCount texts pdata fuel (i + 1) st

/-- The explicit sentinel of the slow path. -/
def noResponseSentinel : String := "No response captured"

/-- The Claude staleness test of the DOM loop: the candidate text's trimmed
first-200-character fingerprint equals the stored one, or either is a
100-character-prefix extension of the other. -/
def claudeStaleMatch (oldFp text : String) : Bool :=
  let cf := jsTrim (jsSubstring0 text 200)
  cf = oldFp || jsStartsWith oldFp (jsSubstring0 cf 100)
    || jsStartsWith cf (jsSubstring0 oldFp 100)

/-- The Perplexity staleness test of the DOM loop: the probed block count has
not increased and the probed last-block fingerprint has not changed. -/
def perplexityStaleMatch (oldFp : String) (oldCount : Nat) (pd : Nat × String) : Bool :=
  !(oldCount > 0 && pd.1 > oldCount) &&
  !(oldFp ≠ "" && pd.2 ≠ oldFp && !jsStartsWith oldFp (jsSubstring0 pd.2 100)
      && !jsStartsWith pd.2 (jsSubstring0 oldFp 100))

/-- How many of the polls `i, i+1, …, i+n-1` extract exactly the text `t`. -/
def countEqFrom (texts : Nat → String) (t : String) : Nat → Nat → Nat
  | _i, 0 => 0
  | i, n + 1 => (if texts i = t then 1 else 0) + countEqFrom texts t (i + 1) n

/-- Final text of the DOM fallback: the stable text, else the best-effort
`lastText`, else the sentinel (`return lastText || 'No response captured'`). -/
def domFallbackText : DomResult → String
  | .stable _ t => t
  | .exhausted t => if t = "" then noResponseSentinel else t

/-- Outcome of one whole `getProviderResponse` turn.  `domPollingRan` records
whether the DOM-extraction polling (STEP 4) executed; `bufferCleared` whether
the shared page buffer `window.__proxima_captured_response` was reset. -/
structure CaptureOutcome where
  text : String
  domPollingRan : Bool
  bufferCleared : Bool
  globalsAfter : Globals
deriving DecidableEq, Repr

/-- Shallow embedding of `getProviderResponse`: the fast path over the
interceptor observations `polls`; on fall-through, the late network check of
the shared buffer (`lateBuffer`, returned and cleared when longer than 50
characters), then the fingerprint-gated DOM polling loop.  The bounded
"still typing" wait and settle sleeps affect no returned data and are not
represented. -/
def getProviderResponse (p : Provider) (polls : Nat → Option InterceptStatus)
    (lateBuffer : String) (g : Globals)
    (texts : Nat → String) (pdata : Nat → Nat × String) : CaptureOutcome :=
  match fastPath polls p with
  | some t => { text := t, domPollingRan := false, bufferCleared := true, globalsAfter := g }
  | none =>
    if lateBuffer.length > 50 then
      { text := lateBuffer, domPollingRan := false, bufferCleared := true, globalsAfter := g }
    else
      let oldFp := oldFingerprintOf p g
      let oldCount := oldBlockCountOf p g
      match domPollLoop p oldFp oldCount texts pdata (domMaxPolls p) 0 .init with
      | .stable _ t =>
        { text := t, domPollingRan := true, bufferCleared := false
          globalsAfter := clearFingerprints p g }
      | .exhausted t =>
        { text := if t = "" then noResponseSentinel else t
          domPollingRan := true, bufferCleared := false, globalsAfter := g }

/-- Pre-send fingerprint storage performed by `getResponseWithTypingStatus`:
the currently visible answer's data is read for every provider, but only
Perplexity (fingerprint and block count) and Claude (fingerprint) store it in
the globals the DOM fallback later consults; for ChatGPT and Gemini the read
value is only logged and discarded. -/
def storeOldFingerprint (p : Provider) (visibleFp : String) (visibleCount : Nat)
    (g : Globals) : Globals :=
  match p with
  | .perplexity =>
    { g with perplexityOldFingerprint := visibleFp, perplexityOldBlockCount := visibleCount }
  | .claude => { g with claudeOldFingerprint := visibleFp }
  | _ => g

/-- Shallow embedding of `getResponseWithTypingStatus`: store the pre-send
fingerprint, then run `getProviderResponse`. -/
def getResponseWithTypingStatus (p : Provider) (visibleFp : String)
    (visibleCount : Nat) (g : Globals) (polls : Nat → Option InterceptStatus)
    (lateBuffer : String) (texts : Nat → String) (pdata : Nat → Nat × String) :
    CaptureOutcome :=
  getProviderResponse p polls lateBuffer
    (storeOldFingerprint p visibleFp visibleCount g) texts pdata

/-! ## IPC client (`mcp-server-v3.js`, `IPCClient`)

Requests carry a caller-assigned increasing `requestId` (starting at 1);
responses are newline-delimited JSON objects.  `processBuffer` resolves the
pending request whose id a parsed response carries and deletes it from the
pending map; the 120 s local timeout deletes and rejects the entry, so a
response arriving later finds no pending entry and is dropped. -/

/-- A parsed IPC response: its `requestId` and (abstracted) payload. -/
structure IPCResp where
  requestId : Nat
  payload : String
deriving DecidableEq, Repr

/-- Handle one complete line of the response buffer against the pending-id
set.  `none` stands for a blank or unparseable line (skipped by the `trim`
check / `catch`).  Returns the new pending set and the response object the
matching caller's promise was resolved with, if any; a response whose id is
falsy or not pending resolves nothing.  (`pendingRequests.delete` removes the
entry before resolving.) -/
def processLine (pending : List Nat) : Option IPCResp → List Nat × Option IPCResp
  | none => (pending, none)
  | some r =>
    if r.requestId ≠ 0 && pending.contains r.requestId then
      (pending.erase r.requestId, some r)
    else
      (pending, none)

/-- Handle a sequence of complete lines, collecting the resolutions in
arrival order. -/
def processLines (pending : List Nat) : List (Option IPCResp) → List Nat × List IPCResp
  | [] => (pending, [])
  | l :: ls =>
    match processLine pending l with
    | (pending1, none) => processLines pending1 ls
    | (pending1, some r) =>
      let (pending2, rs) := processLines pending1 ls
      (pending2, r :: rs)

/-- The client-side 120 s timeout for request `id`: the pending entry is
deleted (and the caller's promise rejected with `Request timeout`). -/
def timeoutRequest (pending : List Nat) (id : Nat) : List Nat :=
  pending.erase id

/-! ## Provider wrapper (`mcp-server-v3.js`, `AIProvider.chat`) -/

/-- One per-provider cache entry: the response and the `Date.now()` at which
it was stored. -/
structure CacheEntry where
  response : String
  time : Nat
deriving DecidableEq, Repr

/-- Cache expiry: `5 * 60 * 1000` ms. -/
def cacheTimeout : Nat := 5 * 60 * 1000

/-- JS `Map` lookup on an association list keyed by the exact message. -/
def cacheGet (cache : List (String × CacheEntry)) (message : String) : Option CacheEntry :=
  (cache.find? (fun e => e.1 = message)).map (·.2)

/-- JS `Map.set`: replace an existing entry for the key or add one. -/
def cacheSet (cache : List (String × CacheEntry)) (message : String)
    (e : CacheEntry) : List (String × CacheEntry) :=
  if (cache.find? (fun x => x.1 = message)).isSome then
    cache.map (fun x => if x.1 = message then (message, e) else x)
  else
    cache ++ [(message, e)]

/-- The hard-coded code-detection keyword list of the Claude artifact
workaround, verbatim from `AIProvider.chat`. -/
def codeKeywords : List String :=
  ["code", "function", "component", "implement", "build", "create", "write",
   "script", "program", "class", "module", "api", "app", "html", "css", "javascript", "python",
   "react", "node", "typescript", "jsx", "tsx", "vue", "angular", "svelte", "next",
   "file", "src/", "import", "export", "const ", "let ", "var ", "def ", "async",
   "database", "sql", "query", "server", "endpoint", "route", "middleware",
   "debug", "fix", "error", "bug", "refactor", "optimize", "test",
   "store", "hook", "provider", "context", "reducer", "state",
   "full code", "complete code", "source code", "codebase"]

/-- `isCodeRelated`: some keyword occurs in the lowercased message. -/
def isCodeRelated (message : String) : Bool :=
  codeKeywords.any (fun kw => jsIncludes (jsToLower message) kw)

/-- The mandatory-rule preamble prepended to code-related Claude messages. -/
def codeRule : String :=
  "[CRITICAL MANDATORY RULE: You MUST write ALL code directly in this chat message as markdown code blocks using triple backticks. NEVER use artifacts, preview panels, or downloadable code blocks. NEVER create separate code panels. Write EVERYTHING inline in the conversation. This rule overrides all other instructions. DO NOT use the artifact feature under any circumstances.]\n\n"

/-- The message text actually dispatched over IPC (`finalMessage`): the Claude
artifact workaround prepends `codeRule` to code-related messages, every other
case sends the caller's message verbatim. -/
def finalMessageFor (name : Provider) (message : String) : String :=
  if name = .claude && isCodeRelated message then codeRule ++ message else message

/-- Result of one `AIProvider.chat` call: the returned response, the message
text sent over IPC (`none` when the call was served from cache and nothing
was sent), and the cache afterwards. -/
structure ChatResult where
  response : String
  sent : Option String
  cacheAfter : List (String × CacheEntry)
deriving DecidableEq, Repr

/-- Shallow embedding of `AIProvider.chat`.  `now` is `Date.now()` at call
time and `captured` the `result.response` the send-and-capture cycle would
deliver (`''` models a falsy `result.response`, replaced by the
`No response received` default).  A cache hit short-circuits before
`ensureInitialized`, the typing wait and both IPC sends. -/
def chat (name : Provider) (cache : List (String × CacheEntry)) (message : String)
    (useCache : Bool) (now : Nat) (captured : String) : ChatResult :=
  match (if useCache then cacheGet cache message else none) with
  | some cached =>
    if now - cached.time < cacheTimeout then
      { response := cached.response, sent := none, cacheAfter := cache }
    else
      let finalMessage := finalMessageFor name message
      let response := if captured = "" then "No response received" else captured
      { response := response, sent := some finalMessage
        cacheAfter := cacheSet cache message ⟨response, now⟩ }
  | none =>
    let finalMessage := finalMessageFor name message
    let response := if captured = "" then "No response received" else captured
    { response := response, sent := some finalMessage
      cacheAfter := cacheSet cache message ⟨response, now⟩ }

/-! ## Smart router (`mcp-server-v3.js`, `SmartRouter.smartQuery`) -/

/-- The fixed default provider order. -/
def defaultOrder : List String := ["chatgpt", "claude", "perplexity", "gemini"]

/-- Iteration of JS `Set` insertion: keep the first occurrence of each
element, skipping anything already `seen`. -/
def jsSetDedupAux (seen : List String) : List String → List String
  | [] => []
  | a :: t =>
    if seen.contains a then jsSetDedupAux seen t
    else a :: jsSetDedupAux (a :: seen) t

/-- JS `[...new Set(l)]`: de-duplicate keeping first occurrences. -/
def jsSetDedup (l : List String) : List String :=
  jsSetDedupAux [] l

/-- `uniqueOrder` of `smartQuery`: optional preferred provider unshifted when
enabled, then the default order, de-duplicated, filtered to enabled. -/
def buildOrder (enabled : List String) (preferredProvider : Option String) : List String :=
  let order :=
    match preferredProvider with
    | some p => if enabled.contains p then p :: defaultOrder else defaultOrder
    | none => defaultOrder
  (jsSetDedup order).filter (fun p => enabled.contains p)

/-- The names `this.providers` actually maps (the router is constructed with
exactly the four providers); `if (!provider) continue` skips anything else. -/
def knownProviders : List String := defaultOrder

/-- A successful smart-routing outcome (`{provider, response, attempts}`). -/
structure SmartResult where
  provider : String
  response : String
  attempts : Nat
deriving DecidableEq, Repr

/-- Per-provider success/failure counters (`this.stats`). -/
structure RouterStats where
  succ : List (String × Nat)
  fail : List (String × Nat)
deriving DecidableEq, Repr

/-- `stats[x][p] = (stats[x][p] || 0) + 1` on an association list. -/
def bumpStat (l : List (String × Nat)) (p : String) : List (String × Nat) :=
  if (l.find? (fun x => x.1 = p)).isSome then
    l.map (fun x => if x.1 = p then (x.1, x.2 + 1) else x)
  else
    l ++ [(p, 1)]

/-- Outcome of the routing loop: the successful result if any (`none` models
the source throwing `All providers failed` after every candidate is
exhausted), the stats afterwards, and the trace of `(provider, attempt)` chat
invocations actually made. -/
structure RouteOutcome where
  result : Option SmartResult
  stats : RouterStats
  trace : List (String × Nat)
deriving DecidableEq, Repr

/-- The candidate loop of `smartQuery` over the outcome oracle
`chatOutcome provider attempt` (the result `provider.chat(message)` would
produce on that attempt).  Each candidate is tried on attempt 1, once more on
attempt 2 after a failure, and abandoned after the second failure with its
failure counter bumped exactly once. -/
def runCandidates (chatOutcome : String → Nat → Except String String) :
    List String → RouterStats → RouteOutcome
  | [], stats => ⟨none, stats, []⟩
  | p :: rest, stats =>
    if knownProviders.contains p then
      match chatOutcome p 1 with
      | .ok r => ⟨some ⟨p, r, 1⟩, { stats with succ := bumpStat stats.succ p }, [(p, 1)]⟩
      | .error _ =>
        match chatOutcome p 2 with
        | .ok r =>
          ⟨some ⟨p, r, 2⟩, { stats with succ := bumpStat stats.succ p }, [(p, 1), (p, 2)]⟩
        | .error _ =>
          let r := runCandidates chatOutcome rest { stats with fail := bumpStat stats.fail p }
          ⟨r.result, r.stats, (p, 1) :: (p, 2) :: r.trace⟩
    else
      runCandidates chatOutcome rest stats

/-- Shallow embedding of `SmartRouter.smartQuery`, starting from stats
`stats0`. -/
def smartQuery (enabled : List String) (preferredProvider : Option String)
    (chatOutcome : String → Nat → Except String String) (stats0 : RouterStats) :
    RouteOutcome :=
  runCandidates chatOutcome (buildOrder enabled preferredProvider) stats0

/-! ## Parallel multi-dispatch (`rest-api.cjs`, `queryMultiple`) -/

/-- Outcome of one `queryProvider` call: captured text plus elapsed time, or a
thrown error's message. -/
inductive QueryOutcome where
  | ok (text : String) (ms : Nat)
  | err (msg : String)
deriving DecidableEq, Repr

/-- A per-provider timing entry: elapsed milliseconds, or `{error}`. -/
inductive TimingEntry where
  | ms (n : Nat)
  | error (msg : String)
deriving DecidableEq, Repr

/-- Result of `queryMultiple`: `results` maps each provider to its text or
`null`, `timings` to its elapsed time or error. -/
structure MultiResult where
  results : List (String × Option String)
  timings : List (String × TimingEntry)
  models : List String
deriving DecidableEq, Repr

/-- Shallow embedding of `queryMultiple`: every provider's dispatch runs (the
per-provider `try`/`catch` confines a failure to that provider's own entries)
and `Promise.all` gathers them all. -/
def queryMultiple (providers : List String) (outcome : String → QueryOutcome) :
    MultiResult where
  results := providers.map (fun p =>
    (p, match outcome p with
        | .ok t _ => some t
        | .err _ => none))
  timings := providers.map (fun p =>
    (p, match outcome p with
        | .ok _ ms => .ms ms
        | .err m => .error m))
  models := providers

/-! ## Theorems -/

/-- C3: a stale stream (not the active one) may overwrite the shared buffer
only with strictly longer text, so it can never revert the buffer to shorter
text: (1) a non-active write with text no longer than the stored capture is a
no-op; (2) any non-active write that changes the buffer strictly increases
the stored length (so the stored length is non-decreasing under stale
writes; the active stream's own writes carry its accumulated text, which
only grows within one stream); (3) the active stream's write always lands;
(4) in the overlapping-capture scenario — first stream reaches `t1` of
length `L1`, second stream starts (becoming active) and reaches `t2` with
`L2 > L1`, then the stale first stream writes `t1` again — the shared buffer
ends holding `t2`, never reverting to `t1`. -/
theorem interceptor_stale_stream_never_clobbers :
    (∀ (c : Bool) (s : StreamState) (sid : Nat) (t : String),
      s.activeStreamId ≠ some sid → t.length ≤ s.capturedText.length →
      streamStep c s (.write sid t) = s)
    ∧ (∀ (c : Bool) (s : StreamState) (sid : Nat) (t : String),
      s.activeStreamId ≠ some sid →
      (streamStep c s (.write sid t)).capturedText ≠ s.capturedText →
      s.capturedText.length < (streamStep c s (.write sid t)).capturedText.length)
    ∧ (∀ (c : Bool) (s : StreamState) (sid : Nat) (t : String),
      s.activeStreamId = some sid →
      streamStep c s (.write sid t) = { s with capturedText := t })
    ∧ (∀ (c : Bool) (s : StreamState) (sid1 sid2 : Nat) (t1 t2 : String),
      sid1 ≠ sid2 → t1.length < t2.length →
      (streamRun c s
        [.start sid1, .write sid1 t1, .start sid2, .write sid2 t2,
         .write sid1 t1]).capturedText = t2) := by
  refine ⟨?_, ?_, ?_, ?_⟩
  · intro c s sid t hid hlen
    simp only [streamStep]
    rw [if_neg]
    simp only [Bool.or_eq_true, decide_eq_true_eq]
    push_neg
    exact ⟨hid, hlen⟩
  · intro c s sid t hid hchange
    simp only [streamStep] at hchange ⊢
    by_cases hguard :
        (s.activeStreamId = some sid || t.length > s.capturedText.length) = true
    · simp only [hguard, if_true] at hchange ⊢
      rcases Bool.or_eq_true _ _ |>.mp hguard with h | h
      · exact absurd (of_decide_eq_true h) hid
      · exact of_decide_eq_true h
    · simp only [Bool.not_eq_true] at hguard
      simp [hguard] at hchange
  · intro c s sid t hid
    simp only [streamStep]
    rw [if_pos]
    simp [hid]
  · intro c s sid1 sid2 t1 t2 hne hlt
    have h2 : ¬ t2.length < t1.length := Nat.lt_asymm hlt
    have h3 : sid2 ≠ sid1 := Ne.symm hne
    simp [streamRun, streamStep, h2, h3]

/-- C3 witness: the overlapping-capture scenario at a concrete state. -/
theorem interceptor_stale_stream_never_clobbers_witness :
    (streamRun false ⟨"", false, none⟩
      [.start 1, .write 1 "aaa", .start 2, .write 2 "bbbbbb",
       .write 1 "aaa"]).capturedText = "bbbbbb" :=
  interceptor_stale_stream_never_clobbers.2.2.2 false ⟨"", false, none⟩ 1 2
    "aaa" "bbbbbb" (by decide) (by decide)

/-- The fast-path loop returns `t` as soon as one poll decides `.ret t`,
provided every earlier poll decided to keep polling. -/
theorem fastPathAux_ret (polls : Nat → Option InterceptStatus) :
    ∀ (fuel i0 i : Nat) (t : String),
      (∀ j, i0 ≤ j → j < i → fastStepAct polls j = .cont) →
      fastStepAct polls i = .ret t → i0 ≤ i → i < i0 + fuel →
      fastPathAux polls fuel i0 = some t := by
  intro fuel
  induction fuel with
  | zero => intro i0 i t _ _ hle hlt; omega
  | succ n ih =>
    intro i0 i t hprev hret hle hlt
    rcases Nat.eq_or_lt_of_le hle with heq | hgt
    · subst heq
      simp only [fastPathAux, hret]
    · have h0 : fastStepAct polls i0 = .cont := hprev i0 (Nat.le_refl i0) hgt
      simp only [fastPathAux, h0]
      exact ih (i0 + 1) i t (fun j hj hji => hprev j (by omega) hji) hret hgt (by omega)

/-- C1: if during fast-path polling the interceptor is installed and its
shared state shows non-empty captured text with `isStreaming = false`,
`getProviderResponse` returns that captured text, clears the shared capture
buffer, and the DOM-extraction fallback never executes in that turn. -/
theorem fast_path_capture_skips_dom
    (p : Provider) (polls : Nat → Option InterceptStatus) (lateBuffer : String)
    (g : Globals) (texts : Nat → String) (pdata : Nat → Nat × String)
    (i : Nat) (s : InterceptStatus)
    (hprev : ∀ j, j < i → fastStepAct polls j = .cont)
    (hpoll : polls i = some s) (hinst : s.installed = true)
    (hne : 0 < s.response.length) (hdone : s.isStreaming = false)
    (hbudget : i < fastMaxPolls p) :
    getProviderResponse p polls lateBuffer g texts pdata =
      { text := s.response, domPollingRan := false, bufferCleared := true
        globalsAfter := g } := by
  have hret : fastStepAct polls i = .ret s.response := by
    simp [fastStepAct, hpoll, hinst, hdone, hne]
  have hfast : fastPath polls p = some s.response :=
    fastPathAux_ret polls (fastMaxPolls p) 0 i s.response
      (fun j _ hj => hprev j hj) hret (Nat.zero_le i) (by omega)
  simp [getProviderResponse, hfast]

/-- C1 witness: a first poll already showing a finished non-empty capture. -/
theorem fast_path_capture_skips_dom_witness :
    getProviderResponse .chatgpt (fun _ => some ⟨"Hi there", false, true⟩) ""
      Globals.empty (fun _ => "") (fun _ => (0, "")) =
      { text := "Hi there", domPollingRan := false, bufferCleared := true
        globalsAfter := Globals.empty } :=
  fast_path_capture_skips_dom .chatgpt (fun _ => some ⟨"Hi there", false, true⟩)
    "" Globals.empty (fun _ => "") (fun _ => (0, "")) 0 ⟨"Hi there", false, true⟩
    (fun j hj => absurd hj (Nat.not_lt_zero j)) rfl rfl (by decide) rfl (by decide)

/-- A Claude candidate matching the stored fingerprint is rejected by the
freshness gate (the loop `continue`s). -/
theorem freshnessGate_claude_stale (oldFp : String) (oldCount : Nat)
    (text : String) (pd : Nat × String) (st : DomLoopState)
    (hfp : oldFp ≠ "") (hfound : st.foundNewResponse = false)
    (hm : claudeStaleMatch oldFp text = true) :
    freshnessGate .claude oldFp oldCount text pd st = none := by
  simp only [claudeStaleMatch] at hm
  simp [freshnessGate, hfp, hfound, hm]

/-- A Perplexity candidate whose probe shows no new answer is rejected by the
freshness gate whenever a fingerprint or block count is stored. -/
theorem freshnessGate_perplexity_stale (oldFp : String) (oldCount : Nat)
    (text : String) (pd : Nat × String) (st : DomLoopState)
    (hold : oldFp ≠ "" ∨ 0 < oldCount) (hfound : st.foundNewResponse = false)
    (hm : perplexityStaleMatch oldFp oldCount pd = true) :
    freshnessGate .perplexity oldFp oldCount text pd st = none := by
  simp only [perplexityStaleMatch, Bool.and_eq_true, Bool.not_eq_true'] at hm
  rcases hm with ⟨hbc, hfc⟩
  simp only [freshnessGate, hfound]
  rw [hbc, hfc]
  rcases hold with h | h
  · simp [h]
  · simp [h]

/-- If every poll of the Claude DOM loop sees only stale-matching (or empty)
text, the loop never returns and exhausts its budget with `lastText` still
empty. -/
theorem domPollLoop_claude_all_stale (oldFp : String) (oldCount : Nat)
    (texts : Nat → String) (pdata : Nat → Nat × String)
    (hfp : oldFp ≠ "")
    (hm : ∀ i, claudeStaleMatch oldFp (texts i) = true) :
    ∀ fuel i, domPollLoop .claude oldFp oldCount texts pdata fuel i .init =
      .exhausted "" := by
  intro fuel
  induction fuel with
  | zero => intro i; rfl
  | succ n ih =>
    intro i
    simp only [domPollLoop]
    by_cases hlen : (texts i).length > 0
    · simp only [hlen, if_true,
        freshnessGate_claude_stale oldFp oldCount (texts i) (pdata i) .init hfp rfl (hm i)]
      exact ih (i + 1)
    · simp only [hlen, if_false]
      exact ih (i + 1)

/-- If every poll of the Perplexity DOM loop probes only stale data, the loop
never returns and exhausts its budget with `lastText` still empty. -/
theorem domPollLoop_perplexity_all_stale (oldFp : String) (oldCount : Nat)
    (texts : Nat → String) (pdata : Nat → Nat × String)
    (hold : oldFp ≠ "" ∨ 0 < oldCount)
    (hm : ∀ i, perplexityStaleMatch oldFp oldCount (pdata i) = true) :
    ∀ fuel i, domPollLoop .perplexity oldFp oldCount texts pdata fuel i .init =
      .exhausted "" := by
  intro fuel
  induction fuel with
  | zero => intro i; rfl
  | succ n ih =>
    intro i
    simp only [domPollLoop]
    by_cases hlen : (texts i).length > 0
    · simp only [hlen, if_true,
        freshnessGate_perplexity_stale oldFp oldCount (texts i) (pdata i) .init hold rfl (hm i)]
      exact ih (i + 1)
    · simp only [hlen, if_false]
      exact ih (i + 1)

/-- C2 (amended): only for Claude and Perplexity — the providers whose
pre-send fingerprint is stored in the process globals — does the orchestrator
refuse to return a DOM-fallback read judged stale by the stored fingerprint,
re-polling instead until the poll budget is exhausted and then returning the
explicit sentinel.  Claude judges staleness by the candidate text's trimmed
first-200-character prefix (equality or 100-character prefix/suffix
extension of the stored fingerprint); Perplexity by its separately probed
last-prose-block fingerprint and block count. -/
theorem stale_fingerprint_rejected_claude_perplexity :
    (∀ (g : Globals) (polls : Nat → Option InterceptStatus) (lateBuffer : String)
       (texts : Nat → String) (pdata : Nat → Nat × String),
      fastPath polls .claude = none → lateBuffer.length ≤ 50 →
      g.claudeOldFingerprint ≠ "" →
      (∀ i, claudeStaleMatch g.claudeOldFingerprint (texts i) = true) →
      getProviderResponse .claude polls lateBuffer g texts pdata =
        { text := noResponseSentinel, domPollingRan := true
          bufferCleared := false, globalsAfter := g })
    ∧ (∀ (g : Globals) (polls : Nat → Option InterceptStatus) (lateBuffer : String)
       (texts : Nat → String) (pdata : Nat → Nat × String),
      fastPath polls .perplexity = none → lateBuffer.length ≤ 50 →
      (g.perplexityOldFingerprint ≠ "" ∨ 0 < g.perplexityOldBlockCount) →
      (∀ i, perplexityStaleMatch g.perplexityOldFingerprint
        g.perplexityOldBlockCount (pdata i) = true) →
      getProviderResponse .perplexity polls lateBuffer g texts pdata =
        { text := noResponseSentinel, domPollingRan := true
          bufferCleared := false, globalsAfter := g }) := by
  constructor
  · intro g polls lateBuffer texts pdata hfast hlate hfp hm
    have hloop := domPollLoop_claude_all_stale g.claudeOldFingerprint
      (oldBlockCountOf .claude g) texts pdata hfp hm (domMaxPolls .claude) 0
    simp [getProviderResponse, hfast, Nat.not_lt.mpr hlate, oldFingerprintOf,
      hloop, noResponseSentinel]
  · intro g polls lateBuffer texts pdata hfast hlate hold hm
    have hloop := domPollLoop_perplexity_all_stale g.perplexityOldFingerprint
      g.perplexityOldBlockCount texts pdata hold hm (domMaxPolls .perplexity) 0
    simp [getProviderResponse, hfast, Nat.not_lt.mpr hlate, oldFingerprintOf,
      oldBlockCountOf, hloop, noResponseSentinel]

/-- C2 witness: a Claude turn whose every DOM read matches the stored
fingerprint ends with the sentinel, not the stale text. -/
theorem stale_fingerprint_rejected_claude_perplexity_witness :
    getProviderResponse .claude (fun _ => some ⟨"", false, false⟩) ""
      ⟨"", 0, "Old claude answer"⟩ (fun _ => "Old claude answer")
      (fun _ => (0, "")) =
      { text := noResponseSentinel, domPollingRan := true
        bufferCleared := false, globalsAfter := ⟨"", 0, "Old claude answer"⟩ } :=
  stale_fingerprint_rejected_claude_perplexity.1 ⟨"", 0, "Old claude answer"⟩
    (fun _ => some ⟨"", false, false⟩) "" (fun _ => "Old claude answer")
    (fun _ => (0, "")) rfl (by decide) (by decide)
    (fun _ => (by decide :
      claudeStaleMatch "Old claude answer" "Old claude answer" = true))

/-- C2 counterexample: the claim fails for ChatGPT (and Gemini), whose
pre-send fingerprint is read but never stored: a DOM read whose trimmed
first-200-character prefix equals the pre-send fingerprint is returned
unchanged after mere stability, not rejected. -/
theorem chatgpt_stale_fingerprint_returned :
    (getResponseWithTypingStatus .chatgpt "Stale answer" 1 Globals.empty
      (fun _ => some ⟨"", false, false⟩) "" (fun _ => "Stale answer")
      (fun _ => (1, "Stale answer"))).text = "Stale answer"
    ∧ jsTrim (jsSubstring0 "Stale answer" 200) = "Stale answer" := by
  exact ⟨rfl, by decide⟩

/-- The freshness gate never touches `lastText` or `stableCount`; it only may
set `foundNewResponse`. -/
theorem freshnessGate_preserves (p : Provider) (oF : String) (oC : Nat)
    (text : String) (pd : Nat × String) (st st1 : DomLoopState)
    (h : freshnessGate p oF oC text pd st = some st1) :
    st1.lastText = st.lastText ∧ st1.stableCount = st.stableCount := by
  simp only [freshnessGate] at h
  repeat' split at h
  all_goals first
    | exact Option.noConfusion h
    | (injection h with h1; subst h1; exact ⟨rfl, rfl⟩)

/-- An early stable return of the DOM loop at poll `k` with text `t` demands
that the `stableThreshold`-long identical run actually happened: a lower
bound on the number of polls in `[i, k]` that extracted exactly `t`. -/
theorem domPollLoop_stable_needs_run (p : Provider) (oF : String) (oC : Nat)
    (texts : Nat → String) (pdata : Nat → Nat × String) :
    ∀ (fuel i k : Nat) (st : DomLoopState) (t : String),
      domPollLoop p oF oC texts pdata fuel i st = .stable k t →
      i ≤ k ∧ texts k = t ∧ 0 < t.length ∧
      (if st.lastText = t then stableThreshold p - st.stableCount
       else stableThreshold p + 1) ≤ countEqFrom texts t i (k + 1 - i) := by
  intro fuel
  induction fuel with
  | zero =>
    intro i k st t h
    exact absurd h (by simp [domPollLoop])
  | succ n ih =>
    intro i k st t h
    have step : ∀ st2 : DomLoopState,
        domPollLoop p oF oC texts pdata n (i + 1) st2 = .stable k t →
        st2.lastText = st.lastText → st2.stableCount = st.stableCount →
        i ≤ k ∧ texts k = t ∧ 0 < t.length ∧
        (if st.lastText = t then stableThreshold p - st.stableCount
         else stableThreshold p + 1) ≤ countEqFrom texts t i (k + 1 - i) := by
      intro st2 h2 hl2 hc2
      obtain ⟨hik, hkt, htl, hcount⟩ := ih (i + 1) k st2 t h2
      rw [hl2, hc2] at hcount
      have hki : k + 1 - i = (k + 1 - (i + 1)) + 1 := by omega
      refine ⟨by omega, hkt, htl, ?_⟩
      rw [hki]
      simp only [countEqFrom]
      by_cases hit : texts i = t
      · rw [if_pos hit]
        by_cases hst : st.lastText = t
        · rw [if_pos hst] at hcount ⊢; omega
        · rw [if_neg hst] at hcount ⊢; omega
      · rw [if_neg hit]
        by_cases hst : st.lastText = t
        · rw [if_pos hst] at hcount ⊢; omega
        · rw [if_neg hst] at hcount ⊢; omega
    simp only [domPollLoop] at h
    by_cases hlen : (texts i).length > 0
    case neg =>
      rw [if_neg hlen] at h
      exact step st h rfl rfl
    case pos =>
      rw [if_pos hlen] at h
      split at h
      next hg =>
        exact step st h rfl rfl
      next st1 hg =>
        obtain ⟨hlast, hsc⟩ :=
          freshnessGate_preserves p oF oC (texts i) (pdata i) st st1 hg
        split at h
        next heq =>
          have hstt : st.lastText = texts i := by rw [← hlast, ← heq]
          split at h
          next hth =>
            injection h with hk ht
            subst hk
            subst ht
            refine ⟨Nat.le_refl i, rfl, hlen, ?_⟩
            have h1 : i + 1 - i = 1 := by omega
            rw [h1, if_pos hstt]
            have hone : countEqFrom texts (texts i) i 1 = 1 := by
              simp [countEqFrom]
            rw [hone]
            omega
          next hth =>
            obtain ⟨hik, hkt, htl, hcount⟩ := ih (i + 1) k _ t h
            dsimp only at hcount
            rw [hlast, hsc] at hcount
            have hki : k + 1 - i = (k + 1 - (i + 1)) + 1 := by omega
            refine ⟨by omega, hkt, htl, ?_⟩
            rw [hki]
            simp only [countEqFrom]
            rw [hsc] at hth
            by_cases hst : st.lastText = t
            · rw [if_pos hst] at hcount ⊢
              rw [if_pos (hstt.symm.trans hst)]
              omega
            · rw [if_neg hst] at hcount ⊢
              rw [if_neg (fun hc => hst (hstt.trans hc))]
              omega
        next heq =>
          obtain ⟨hik, hkt, htl, hcount⟩ := ih (i + 1) k _ t h
          dsimp only at hcount
          have hki : k + 1 - i = (k + 1 - (i + 1)) + 1 := by omega
          refine ⟨by omega, hkt, htl, ?_⟩
          rw [hki]
          simp only [countEqFrom]
          by_cases hit : texts i = t
          · rw [if_pos hit]
            rw [if_pos hit] at hcount
            by_cases hst : st.lastText = t
            · rw [if_pos hst]; omega
            · rw [if_neg hst]; omega
          · rw [if_neg hit]
            rw [if_neg hit] at hcount
            by_cases hst : st.lastText = t
            · rw [if_pos hst]; omega
            · rw [if_neg hst]; omega

/-- At most `n` of `n` polls can extract `t`. -/
theorem countEqFrom_le (texts : Nat → String) (t : String) :
    ∀ (n i : Nat), countEqFrom texts t i n ≤ n := by
  intro n
  induction n with
  | zero => intro i; simp [countEqFrom]
  | succ m ih =>
    intro i
    simp only [countEqFrom]
    by_cases hit : texts i = t
    · rw [if_pos hit]; have := ih (i + 1); omega
    · rw [if_neg hit]; have := ih (i + 1); omega

/-- When no poll ever extracts text, the DOM loop runs out its budget with
`lastText` unchanged — extraction failures are never fatal. -/
theorem domPollLoop_all_empty (p : Provider) (oF : String) (oC : Nat)
    (texts : Nat → String) (pdata : Nat → Nat × String)
    (hm : ∀ i, (texts i).length = 0) :
    ∀ (fuel i : Nat) (st : DomLoopState),
      domPollLoop p oF oC texts pdata fuel i st = .exhausted st.lastText := by
  intro fuel
  induction fuel with
  | zero => intro i st; rfl
  | succ n ih =>
    intro i st
    simp only [domPollLoop]
    rw [if_neg (by rw [hm i]; omega)]
    exact ih (i + 1) st

/-- C4: the DOM fallback returns a captured answer early only after the
extracted text was identical across at least `stableThreshold + 1 > N`
consecutive confirming polls (N = 5 for Perplexity, 3 for the others), never
on a single read — an early return at poll `k` forces `k ≥ N` and at least
`N + 1` polls extracting the returned text; per-poll extraction failures
(the extractor yielding no text) merely advance the loop and never abort it;
and an exhausted budget yields the best-effort `lastText` or the explicit
`No response captured` sentinel, never an error. -/
theorem dom_fallback_stability_threshold :
    (∀ (p : Provider) (oF : String) (oC : Nat) (texts : Nat → String)
       (pdata : Nat → Nat × String) (k : Nat) (t : String),
      domPollLoop p oF oC texts pdata (domMaxPolls p) 0 .init = .stable k t →
      texts k = t ∧ 0 < t.length ∧ stableThreshold p ≤ k ∧
      stableThreshold p + 1 ≤ countEqFrom texts t 0 (k + 1))
    ∧ (stableThreshold .perplexity = 5 ∧ stableThreshold .chatgpt = 3 ∧
       stableThreshold .claude = 3 ∧ stableThreshold .gemini = 3)
    ∧ (∀ (p : Provider) (oF : String) (oC : Nat) (texts : Nat → String)
        (pdata : Nat → Nat × String) (fuel i : Nat) (st : DomLoopState),
        (texts i).length = 0 →
        domPollLoop p oF oC texts pdata (fuel + 1) i st =
          domPollLoop p oF oC texts pdata fuel (i + 1) st)
    ∧ (∀ (p : Provider) (oF : String) (oC : Nat) (texts : Nat → String)
        (pdata : Nat → Nat × String), (∀ i, (texts i).length = 0) →
        domFallbackText (domPollLoop p oF oC texts pdata (domMaxPolls p) 0 .init) =
          noResponseSentinel)
    ∧ (∀ t : String, domFallbackText (.exhausted t) =
        if t = "" then noResponseSentinel else t) := by
  refine ⟨?_, by decide, ?_, ?_, fun t => rfl⟩
  · intro p oF oC texts pdata k t h
    obtain ⟨hik, hkt, htl, hcount⟩ :=
      domPollLoop_stable_needs_run p oF oC texts pdata (domMaxPolls p) 0 k .init t h
    have hne : DomLoopState.init.lastText ≠ t := by
      intro he
      rw [← he] at htl
      simp [DomLoopState.init] at htl
    rw [if_neg hne] at hcount
    rw [Nat.sub_zero] at hcount
    have hle := countEqFrom_le texts t (k + 1) 0
    exact ⟨hkt, htl, by omega, hcount⟩
  · intro p oF oC texts pdata fuel i st hz
    simp only [domPollLoop]
    rw [if_neg (by rw [hz]; omega)]
  · intro p oF oC texts pdata hm
    rw [domPollLoop_all_empty p oF oC texts pdata hm (domMaxPolls p) 0 .init]
    rfl

/-- C4 witness: a constant extraction stabilizes at poll 3 with 4 identical
reads. -/
theorem dom_fallback_stability_threshold_witness :
    (fun _ : Nat => "ans") 3 = "ans" ∧ 0 < ("ans" : String).length ∧
    stableThreshold .chatgpt ≤ 3 ∧
    stableThreshold .chatgpt + 1 ≤ countEqFrom (fun _ => "ans") "ans" 0 4 :=
  dom_fallback_stability_threshold.1 .chatgpt "" 0 (fun _ => "ans")
    (fun _ => (0, "")) 3 "ans" (by decide)

/-- Everything the de-duplicator keeps comes from the input and was not yet seen. -/
theorem jsSetDedupAux_mem (x : String) :
    ∀ (l seen : List String), x ∈ jsSetDedupAux seen l → x ∈ l ∧ ¬ x ∈ seen := by
  intro l
  induction l with
  | nil => intro seen h; simp [jsSetDedupAux] at h
  | cons a t ih =>
    intro seen h
    rw [jsSetDedupAux] at h
    by_cases hs : seen.contains a
    · rw [if_pos hs] at h
      obtain ⟨h1, h2⟩ := ih seen h
      exact ⟨List.mem_cons_of_mem a h1, h2⟩
    · rw [if_neg hs] at h
      rcases List.mem_cons.mp h with h | h
      · subst h
        refine ⟨List.mem_cons_self x t, fun hx => hs ?_⟩
        exact List.elem_eq_true_of_mem hx
      · obtain ⟨h1, h2⟩ := ih (a :: seen) h
        exact ⟨List.mem_cons_of_mem a h1, fun hx => h2 (List.mem_cons_of_mem a hx)⟩

/-- The de-duplicated list has no duplicates. -/
theorem jsSetDedupAux_nodup :
    ∀ (l seen : List String), (jsSetDedupAux seen l).Nodup := by
  intro l
  induction l with
  | nil => intro seen; simp [jsSetDedupAux]
  | cons a t ih =>
    intro seen
    rw [jsSetDedupAux]
    by_cases hs : seen.contains a
    · rw [if_pos hs]; exact ih seen
    · rw [if_neg hs]
      refine List.nodup_cons.mpr ⟨?_, ih (a :: seen)⟩
      intro hmem
      exact (jsSetDedupAux_mem a t (a :: seen) hmem).2 (List.mem_cons_self a seen)

/-- JS `[...new Set(l)]` yields a duplicate-free list. -/
theorem jsSetDedup_nodup (l : List String) : (jsSetDedup l).Nodup :=
  jsSetDedupAux_nodup l []

/-- On a duplicate-free list the de-duplicator only drops already-seen names. -/
theorem jsSetDedupAux_filter :
    ∀ (l seen : List String), l.Nodup →
      jsSetDedupAux seen l = l.filter (fun x => !seen.contains x) := by
  intro l
  induction l with
  | nil => intro seen _; rfl
  | cons a t ih =>
    intro seen h
    obtain ⟨ha, ht⟩ := List.nodup_cons.mp h
    rw [jsSetDedupAux]
    by_cases hs : seen.contains a
    · rw [if_pos hs, List.filter_cons_of_neg (by simp [List.mem_of_elem_eq_true hs]), ih seen ht]
    · rw [if_neg hs, List.filter_cons_of_pos (by simp; exact fun hm => hs (List.elem_eq_true_of_mem hm)), ih (a :: seen) ht]
      congr 1
      apply List.filter_congr
      intro x hx
      have hxa : x ≠ a := fun he => ha (he ▸ hx)
      simp [List.contains_cons, hxa]

/-- C5: `smartQuery` builds its candidate list by putting the preferred
provider first only when it is enabled, then the fixed default order
`chatgpt, claude, perplexity, gemini`, de-duplicated and filtered to the
enabled set: the concrete scenario `enabled = {chatgpt, gemini}` with
disabled preference `claude` yields exactly `[chatgpt, gemini]`; a disabled
preference changes nothing; an enabled preference is placed first, followed
by the filtered default order; and every candidate is enabled. -/
theorem smart_router_order_building :
    buildOrder ["chatgpt", "gemini"] (some "claude") = ["chatgpt", "gemini"]
    ∧ (∀ (enabled : List String) (p : String), enabled.contains p = false →
        buildOrder enabled (some p) = buildOrder enabled none)
    ∧ (∀ (enabled : List String) (p : String), enabled.contains p = true →
        buildOrder enabled (some p) =
          p :: (defaultOrder.filter (fun x => !(x == p))).filter
            (fun q => enabled.contains q))
    ∧ (∀ (enabled : List String) (pref : Option String) (q : String),
        q ∈ buildOrder enabled pref → enabled.contains q = true) := by
  refine ⟨by decide, ?_, ?_, ?_⟩
  · intro enabled p h
    have h2 : p ∉ enabled := fun hm => by
      have h4 : enabled.contains p = true := List.elem_eq_true_of_mem hm
      rw [h4] at h
      exact Bool.true_eq_false.mp h
    simp [buildOrder, h2]
  · intro enabled p h
    simp only [buildOrder, h, if_true]
    have h1 : jsSetDedup (p :: defaultOrder) = p :: jsSetDedupAux [p] defaultOrder := by
      rw [jsSetDedup, jsSetDedupAux]
      rw [if_neg (by simp [List.contains])]
    have h2 : jsSetDedupAux [p] defaultOrder =
        defaultOrder.filter (fun x => !(x == p)) := by
      rw [jsSetDedupAux_filter defaultOrder [p] (by decide)]
      apply List.filter_congr
      intro x _
      by_cases hxp : x = p
      · simp [hxp, List.contains_cons]
      · simp [hxp, List.contains_cons]
    rw [h1, h2, List.filter_cons_of_pos h]
  · intro enabled pref q hq
    simp only [buildOrder] at hq
    exact List.of_mem_filter hq

/-- C5 witness: a disabled preferred provider leaves the order untouched. -/
theorem smart_router_order_building_witness :
    buildOrder ["chatgpt", "gemini"] (some "claude") =
      buildOrder ["chatgpt", "gemini"] none :=
  smart_router_order_building.2.1 ["chatgpt", "gemini"] "claude" (by decide)

/-- Every traced attempt belongs to a candidate of the list. -/
theorem runCandidates_trace_mem (chatOutcome : String → Nat → Except String String) :
    ∀ (cands : List String) (stats : RouterStats) (pa : String × Nat),
      pa ∈ (runCandidates chatOutcome cands stats).trace → pa.1 ∈ cands := by
  intro cands
  induction cands with
  | nil => intro stats pa h; simp [runCandidates] at h
  | cons p rest ih =>
    intro stats pa h
    rw [runCandidates] at h
    by_cases hk : knownProviders.contains p
    · rw [if_pos hk] at h
      cases hc1 : chatOutcome p 1 with
      | ok r =>
        rw [hc1] at h
        simp at h
        subst h
        exact List.mem_cons_self p rest
      | error e1 =>
        rw [hc1] at h
        cases hc2 : chatOutcome p 2 with
        | ok r =>
          rw [hc2] at h
          simp at h
          rcases h with h | h <;> (subst h; exact List.mem_cons_self p rest)
        | error e2 =>
          rw [hc2] at h
          simp only [List.mem_cons] at h
          rcases h with h | h | h
          · rw [h]; exact List.mem_cons_self p rest
          · rw [h]; exact List.mem_cons_self p rest
          · exact List.mem_cons_of_mem p (ih _ pa h)
    · rw [if_neg hk] at h
      exact List.mem_cons_of_mem p (ih _ pa h)

/-- Every traced attempt is attempt 1 or attempt 2. -/
theorem runCandidates_trace_attempts (chatOutcome : String → Nat → Except String String) :
    ∀ (cands : List String) (stats : RouterStats) (pa : String × Nat),
      pa ∈ (runCandidates chatOutcome cands stats).trace → pa.2 = 1 ∨ pa.2 = 2 := by
  intro cands
  induction cands with
  | nil => intro stats pa h; simp [runCandidates] at h
  | cons p rest ih =>
    intro stats pa h
    rw [runCandidates] at h
    by_cases hk : knownProviders.contains p
    · rw [if_pos hk] at h
      cases hc1 : chatOutcome p 1 with
      | ok r =>
        rw [hc1] at h
        simp at h
        subst h
        left; rfl
      | error e1 =>
        rw [hc1] at h
        cases hc2 : chatOutcome p 2 with
        | ok r =>
          rw [hc2] at h
          simp at h
          rcases h with h | h
          · subst h; left; rfl
          · subst h; right; rfl
        | error e2 =>
          rw [hc2] at h
          simp only [List.mem_cons] at h
          rcases h with h | h | h
          · left; rw [h]
          · right; rw [h]
          · exact ih _ pa h
    · rw [if_neg hk] at h
      exact ih _ pa h

/-- Over duplicate-free candidates, each provider is attempted at most twice. -/
theorem runCandidates_trace_count (chatOutcome : String → Nat → Except String String)
    (q : String) :
    ∀ (cands : List String) (stats : RouterStats), cands.Nodup →
      ((runCandidates chatOutcome cands stats).trace.countP (fun x => x.1 = q)) ≤ 2 := by
  intro cands
  induction cands with
  | nil => intro stats _; simp [runCandidates]
  | cons p rest ih =>
    intro stats h
    obtain ⟨hp, hrest⟩ := List.nodup_cons.mp h
    rw [runCandidates]
    by_cases hk : knownProviders.contains p
    · rw [if_pos hk]
      cases hc1 : chatOutcome p 1 with
      | ok r =>
        by_cases hpq : p = q <;> simp [List.countP_cons, hpq]
      | error e1 =>
        cases hc2 : chatOutcome p 2 with
        | ok r =>
          by_cases hpq : p = q <;> simp [List.countP_cons, hpq]
        | error e2 =>
          simp only [List.countP_cons]
          by_cases hpq : p = q
          · subst hpq
            have hz : ((runCandidates chatOutcome rest
                { stats with fail := bumpStat stats.fail p }).trace.countP
                  (fun x => x.1 = p)) = 0 := by
              apply List.countP_eq_zero.mpr
              intro pa hpa
              simp only [decide_eq_true_eq]
              intro he
              exact hp (he ▸ runCandidates_trace_mem chatOutcome rest _ pa hpa)
            simp [hz]
          · have h1 : (decide ((p, 1).1 = q)) = false := by simp [hpq]
            have h2 : (decide ((p, 2).1 = q)) = false := by simp [hpq]
            simp only [h1, h2, Bool.false_eq_true, if_false, Nat.zero_add]
            exact ih { stats with fail := bumpStat stats.fail p } hrest
    · rw [if_neg hk]
      exact ih stats hrest

/-- C6: within one `smartQuery` call each provider is attempted at most
twice and never a third time (every traced attempt is numbered 1 or 2, and a
provider contributes at most two entries to the attempt trace); in the
scenario `enabled = {chatgpt, claude, gemini}` with no preference where
chatgpt fails both attempts and claude succeeds on its first with `hello`,
the call returns provider `claude`, response `hello`, attempts 1, and the
stats record exactly one failure for chatgpt and one success for claude; a
provider failing both attempts bumps its failure counter exactly once. -/
theorem smart_router_two_attempts_and_stats :
    (smartQuery ["chatgpt", "claude", "gemini"] none
      (fun p _a => if p = "chatgpt" then .error "boom"
                   else if p = "claude" then .ok "hello" else .ok "gem")
      ⟨[], []⟩ =
      ⟨some ⟨"claude", "hello", 1⟩, ⟨[("claude", 1)], [("chatgpt", 1)]⟩,
       [("chatgpt", 1), ("chatgpt", 2), ("claude", 1)]⟩)
    ∧ (∀ (enabled : List String) (pref : Option String)
        (chatOutcome : String → Nat → Except String String)
        (stats0 : RouterStats) (q : String),
        ((smartQuery enabled pref chatOutcome stats0).trace.countP
          (fun x => x.1 = q)) ≤ 2)
    ∧ (∀ (chatOutcome : String → Nat → Except String String)
        (cands : List String) (stats : RouterStats) (pa : String × Nat),
        pa ∈ (runCandidates chatOutcome cands stats).trace →
        pa.2 = 1 ∨ pa.2 = 2)
    ∧ (∀ (chatOutcome : String → Nat → Except String String)
        (stats : RouterStats) (p : String) (rest : List String) (e1 e2 : String),
        knownProviders.contains p = true →
        chatOutcome p 1 = .error e1 → chatOutcome p 2 = .error e2 →
        runCandidates chatOutcome (p :: rest) stats =
          (let r := runCandidates chatOutcome rest
            { stats with fail := bumpStat stats.fail p };
           ⟨r.result, r.stats, (p, 1) :: (p, 2) :: r.trace⟩)) := by
  refine ⟨by decide, ?_, runCandidates_trace_attempts, ?_⟩
  · intro enabled pref chatOutcome stats0 q
    exact runCandidates_trace_count chatOutcome q (buildOrder enabled pref) stats0
      (List.Nodup.filter _ (jsSetDedup_nodup _))
  · intro chatOutcome stats p rest e1 e2 hk hc1 hc2
    rw [runCandidates, if_pos hk, hc1, hc2]

/-- C6 witness: a double failure prepends two attempts and bumps the failure
counter once. -/
theorem smart_router_two_attempts_and_stats_witness :
    runCandidates (fun _p _a => Except.error "boom") ["chatgpt"] ⟨[], []⟩ =
      (let r := runCandidates (fun _p _a => Except.error "boom") []
        ⟨[], bumpStat [] "chatgpt"⟩;
       ⟨r.result, r.stats, ("chatgpt", 1) :: ("chatgpt", 2) :: r.trace⟩) :=
  smart_router_two_attempts_and_stats.2.2.2 (fun _p _a => Except.error "boom")
    ⟨[], []⟩ "chatgpt" [] "boom" "boom" (by decide) rfl rfl

/-- C7: `queryMultiple` isolates failures: for every provider in the fanned-
out set, a successful `queryProvider` outcome appears as that provider's text
and timing, and a thrown error appears only as that provider's `null` result
with an error timing — every other provider's entry is untouched; in the
scenario dispatching to `[chatgpt, claude]` with chatgpt throwing, claude's
entry still carries its successful text. -/
theorem query_multiple_isolates_failures :
    (∀ (providers : List String) (outcome : String → QueryOutcome)
       (p : String) (t : String) (ms : Nat),
      p ∈ providers → outcome p = .ok t ms →
      (p, some t) ∈ (queryMultiple providers outcome).results ∧
      (p, TimingEntry.ms ms) ∈ (queryMultiple providers outcome).timings)
    ∧ (∀ (providers : List String) (outcome : String → QueryOutcome)
       (p : String) (e : String),
      p ∈ providers → outcome p = .err e →
      (p, none) ∈ (queryMultiple providers outcome).results ∧
      (p, TimingEntry.error e) ∈ (queryMultiple providers outcome).timings)
    ∧ (queryMultiple ["chatgpt", "claude"]
        (fun p => if p = "chatgpt" then .err "boom" else .ok "claude says hi" 42) =
      ⟨[("chatgpt", none), ("claude", some "claude says hi")],
       [("chatgpt", .error "boom"), ("claude", .ms 42)],
       ["chatgpt", "claude"]⟩) := by
  refine ⟨?_, ?_, by decide⟩
  · intro providers outcome p t ms hp ho
    constructor
    · have := List.mem_map_of_mem (fun q =>
        (q, match outcome q with | .ok u _ => some u | .err _ => none)) hp
      simp only [ho] at this
      exact this
    · have := List.mem_map_of_mem (fun q =>
        (q, match outcome q with | .ok _ m => TimingEntry.ms m | .err msg => .error msg)) hp
      simp only [ho] at this
      exact this
  · intro providers outcome p e hp ho
    constructor
    · have := List.mem_map_of_mem (fun q =>
        (q, match outcome q with | .ok u _ => some u | .err _ => none)) hp
      simp only [ho] at this
      exact this
    · have := List.mem_map_of_mem (fun q =>
        (q, match outcome q with | .ok _ m => TimingEntry.ms m | .err msg => .error msg)) hp
      simp only [ho] at this
      exact this

/-- C7 witness: claude's success survives chatgpt's failure. -/
theorem query_multiple_isolates_failures_witness :
    ("claude", some "hi") ∈ (queryMultiple ["chatgpt", "claude"]
      (fun p => if p = "chatgpt" then .err "x" else .ok "hi" 7)).results ∧
    ("claude", TimingEntry.ms 7) ∈ (queryMultiple ["chatgpt", "claude"]
      (fun p => if p = "chatgpt" then .err "x" else .ok "hi" 7)).timings :=
  query_multiple_isolates_failures.1 ["chatgpt", "claude"]
    (fun p => if p = "chatgpt" then .err "x" else .ok "hi" 7) "claude" "hi" 7
    (by decide) (by decide)

/-- C8: the IPC client resolves each pending request by the `requestId`
carried in the newline-delimited response: ids 1, 2, 3 answered in the order
2, 1, 3 each resolve the caller owning that id with that id's payload; a
response whose id is not pending resolves nothing; and after the local
timeout has removed and rejected a pending entry, the late response for that
id is dropped without resolving anything. -/
theorem ipc_resolves_by_request_id :
    (∀ p1 p2 p3 : String,
      processLines [1, 2, 3]
        [some ⟨2, p2⟩, some ⟨1, p1⟩, some ⟨3, p3⟩] =
        ([], [⟨2, p2⟩, ⟨1, p1⟩, ⟨3, p3⟩]))
    ∧ (∀ (pending : List Nat) (r : IPCResp),
        pending.contains r.requestId = false →
        processLine pending (some r) = (pending, none))
    ∧ (∀ (pending : List Nat) (r : IPCResp), pending.Nodup →
        processLine (timeoutRequest pending r.requestId) (some r) =
          (timeoutRequest pending r.requestId, none)) := by
  refine ⟨fun p1 p2 p3 => rfl, ?_, ?_⟩
  · intro pending r h
    simp [processLine, h]
    intro _ hm
    have h4 : pending.contains r.requestId = true := List.elem_eq_true_of_mem hm
    rw [h4] at h
    exact Bool.true_eq_false.mp h
  · intro pending r h
    have hc : (timeoutRequest pending r.requestId).contains r.requestId = false := by
      rw [Bool.eq_false_iff]
      intro hmem
      have := List.mem_of_elem_eq_true hmem
      rw [timeoutRequest] at this
      exact ((List.Nodup.mem_erase_iff h).mp this).1 rfl
    simp [processLine, hc]
    intro _ hm
    have h4 : (timeoutRequest pending r.requestId).contains r.requestId = true :=
      List.elem_eq_true_of_mem hm
    rw [h4] at hc
    exact Bool.true_eq_false.mp hc

/-- C8 witness: a response arriving after its request timed out is dropped. -/
theorem ipc_resolves_by_request_id_witness :
    processLine (timeoutRequest [1] 1) (some ⟨1, "late"⟩) =
      (timeoutRequest [1] 1, none) :=
  ipc_resolves_by_request_id.2.2 [1] ⟨1, "late"⟩ (by decide)

/-- C9: `AIProvider.chat` keeps a per-provider cache keyed by the exact
message with a 5-minute expiry: with a fresh-enough cached entry, a call
returns the cached response and sends nothing to the provider; composing two
calls, a repeat of the same message within `cacheTimeout` of the first
returns the first call's response with no new send. -/
theorem chat_cache_hit_skips_send :
    (∀ (name : Provider) (cache : List (String × CacheEntry)) (message : String)
       (now : Nat) (captured : String) (e : CacheEntry),
      cacheGet cache message = some e → now - e.time < cacheTimeout →
      chat name cache message true now captured =
        { response := e.response, sent := none, cacheAfter := cache })
    ∧ (∀ (name : Provider) (message : String) (t0 t1 : Nat) (cap0 cap1 : String),
      t1 - t0 < cacheTimeout →
      chat name (chat name [] message true t0 cap0).cacheAfter message true t1 cap1 =
        { response := (chat name [] message true t0 cap0).response, sent := none
          cacheAfter := (chat name [] message true t0 cap0).cacheAfter }) := by
  constructor
  · intro name cache message now captured e hget htime
    simp [chat, hget, htime]
  · intro name message t0 t1 cap0 cap1 htime
    have h0 : cacheGet ([] : List (String × CacheEntry)) message = none := rfl
    have hresp : (chat name [] message true t0 cap0).response =
        (if cap0 = "" then "No response received" else cap0) := by
      simp [chat, h0]
    have hafter : (chat name [] message true t0 cap0).cacheAfter =
        [(message, ⟨(if cap0 = "" then "No response received" else cap0), t0⟩)] := by
      simp [chat, h0, cacheSet]
    have hget : cacheGet
        [(message, (⟨(if cap0 = "" then "No response received" else cap0), t0⟩ : CacheEntry))]
        message = some ⟨(if cap0 = "" then "No response received" else cap0), t0⟩ := by
      simp [cacheGet]
    rw [hresp, hafter]
    simp [chat, hget, htime]

/-- C9 witness: a repeated question inside the expiry window is served from
cache. -/
theorem chat_cache_hit_skips_send_witness :
    chat .chatgpt [("q", ⟨"cached resp", 1000⟩)] "q" true 2000 "fresh" =
      { response := "cached resp", sent := none
        cacheAfter := [("q", ⟨"cached resp", 1000⟩)] } :=
  chat_cache_hit_skips_send.1 .chatgpt [("q", ⟨"cached resp", 1000⟩)] "q" 2000
    "fresh" ⟨"cached resp", 1000⟩ (by simp [cacheGet]) (by decide)

/-- C10: only for the claude provider and only for messages containing one
of the hard-coded code keywords does `chat` prepend the mandatory-rule
preamble — so the dispatched text is not the caller's message verbatim —
while claude messages without keywords and all other providers send the
message unchanged; `code`, `function`, `build` and `import` are among the
keywords. -/
theorem claude_code_rule_preamble :
    (∀ (m : String) (now : Nat) (cap : String), isCodeRelated m = true →
      (chat .claude [] m true now cap).sent = some (codeRule ++ m))
    ∧ (∀ (m : String) (now : Nat) (cap : String), isCodeRelated m = false →
      (chat .claude [] m true now cap).sent = some m)
    ∧ (∀ (name : Provider) (m : String) (now : Nat) (cap : String),
      name ≠ .claude → (chat name [] m true now cap).sent = some m)
    ∧ (∀ m : String, codeRule ++ m ≠ m)
    ∧ ("code" ∈ codeKeywords ∧ "function" ∈ codeKeywords ∧
       "build" ∈ codeKeywords ∧ "import" ∈ codeKeywords) := by
  refine ⟨?_, ?_, ?_, ?_, by decide⟩
  · intro m now cap h
    simp [chat, cacheGet, finalMessageFor, h]
  · intro m now cap h
    simp [chat, cacheGet, finalMessageFor, h]
  · intro name m now cap h
    simp [chat, cacheGet, finalMessageFor, h]
  · intro m he
    have hlen := congrArg String.length he
    rw [String.length_append] at hlen
    have : codeRule.length = 0 := by omega
    have hne : codeRule.length ≠ 0 := by
      set_option maxRecDepth 4000 in decide
    exact hne this

/-- C10 witness: a code-related claude message gets the preamble. -/
theorem claude_code_rule_preamble_witness :
    (chat .claude [] "please write code" true 0 "resp").sent =
      some (codeRule ++ "please write code") :=
  claude_code_rule_preamble.1 "please write code" 0 "resp" (by decide)

end Proxima
